import Mathlib

/-!
Verification of the structured content extraction subsystem of the
ai-structurer repository (src/server.py): the Structured Extractor
(`extract_structured_content`), the Candidate Selector (the WPRM/selector/body
candidate logic inside `extract_article_content`), and the Extraction
Coordinator (the two-method fallback of `extract_article_content`).

The Python code is shallowly embedded: the DOM is a tree of text and element
nodes; BeautifulSoup operations (`find_all`, `get_text(strip=True)`, `select`,
`find`, `decompose`) are modelled as pure recursive functions; Python string
operations (`strip`, `join`, truthiness) are modelled over `String`/`List Char`.
-/

set_option maxRecDepth 10000

namespace AIStructurer

/-! ### Python string primitives -/

/-- Whitespace test used by Python `str.strip()` (modelled by `Char.isWhitespace`). -/
def isWs (c : Char) : Bool := c.isWhitespace

/-- Python `str.strip()` on the character list: drop leading and trailing whitespace. -/
def pstripData (l : List Char) : List Char :=
  ((l.dropWhile isWs).reverse.dropWhile isWs).reverse

/-- Python `str.strip()`. -/
def pstrip (s : String) : String := ⟨pstripData s.data⟩

/-- Python `sep.join(list)`. -/
def joinSep (sep : String) : List String → String
  | [] => ""
  | [a] => a
  | a :: b :: rest => a ++ sep ++ joinSep sep (b :: rest)

/-- Concatenation of a list of strings (Python `+=` accumulation). -/
def concatAll : List String → String
  | [] => ""
  | a :: rest => a ++ concatAll rest

/-- Does the first list occur as a prefix of the second? -/
def startsWithChars : List Char → List Char → Bool
  | [], _ => true
  | _ :: _, [] => false
  | p :: ps, c :: cs => p == c && startsWithChars ps cs

/-- Does the first list occur as a contiguous sublist of the second? -/
def containsSub (pat : List Char) : List Char → Bool
  | [] => startsWithChars pat []
  | c :: cs => startsWithChars pat (c :: cs) || containsSub pat cs

/-- Python `pat in s` substring test. -/
def strContains (s pat : String) : Bool := containsSub pat.data s.data

/-! ### DOM model -/

/-- A parsed DOM node: a text node, or an element with a tag name, a list of
CSS classes (the `class` attribute) and children. -/
inductive Node where
  | text (s : String) : Node
  | elem (tag : String) (classes : List String) (children : List Node) : Node

/-- Tag name of a node (text nodes have none). -/
def tagOf : Node → String
  | .text _ => ""
  | .elem t _ _ => t

mutual
/-- The node itself followed by all of its descendants, pre-order. -/
def subtreeN : Node → List Node
  | .text s => [.text s]
  | .elem t cl cs => .elem t cl cs :: subtreeL cs

/-- Pre-order traversal of a forest. -/
def subtreeL : List Node → List Node
  | [] => []
  | c :: cs => subtreeN c ++ subtreeL cs
end

/-- All descendants of a node (excluding the node itself), pre-order:
the search space of BeautifulSoup `find_all` / `find` / `select`. -/
def descendants : Node → List Node
  | .text _ => []
  | .elem _ _ cs => subtreeL cs

/-- Does this node match one of the given tag names? -/
def isTagIn (tags : List String) (n : Node) : Bool :=
  match n with
  | .text _ => false
  | .elem t _ _ => tags.contains t

/-- BeautifulSoup `element.find_all([tags])`: all matching descendants in
document order. -/
def findAll (tags : List String) (n : Node) : List Node :=
  (descendants n).filter (isTagIn tags)

mutual
/-- BeautifulSoup `get_text(strip=True)`: concatenation of all descendant
text segments, each stripped. -/
def getTextStripN : Node → String
  | .text s => pstrip s
  | .elem _ _ cs => getTextStripL cs

def getTextStripL : List Node → String
  | [] => ""
  | c :: cs => getTextStripN c ++ getTextStripL cs
end

mutual
/-- BeautifulSoup `get_text()` without stripping. -/
def getTextRawN : Node → String
  | .text s => s
  | .elem _ _ cs => getTextRawL cs

def getTextRawL : List Node → String
  | [] => ""
  | c :: cs => getTextRawN c ++ getTextRawL cs
end

mutual
/-- Descendant elements of a node paired with the tag of their direct parent
(`ptag` is the tag of the parent of the nodes in the argument). -/
def descPairsN (ptag : String) : Node → List (Node × String)
  | .text _ => []
  | .elem t cl cs => (.elem t cl cs, ptag) :: descPairsL t cs

def descPairsL (ptag : String) : List Node → List (Node × String)
  | [] => []
  | c :: cs => descPairsN ptag c ++ descPairsL ptag cs
end

/-! ### Structured Extractor (`extract_structured_content`, server.py lines 65-126) -/

/-- The tag allowlist of the traversal (server.py line 117). -/
def allowTags : List String :=
  ["table", "ol", "ul", "h1", "h2", "h3", "h4", "h5", "h6", "p", "div"]

/-- Tags whose direct children are skipped by the traversal (server.py line 120). -/
def structuredTags : List String := ["table", "ol", "ul"]

/-- `element.find_all([...allowlist...])` paired with each match's parent tag. -/
def allElements (root : Node) : List (Node × String) :=
  match root with
  | .text _ => []
  | .elem t _ cs => (descPairsL t cs).filter (fun np => isTagIn allowTags np.1)

/-- One table row (server.py lines 81-84): cells are `th`/`td` descendants,
cell texts are stripped and empty cells dropped, the row is joined with
`" | "` and kept only when its stripped text is non-empty. -/
def rowLine (row : Node) : Option String :=
  if pstrip (joinSep " | " (((findAll ["th", "td"] row).map getTextStripN).filter
      (fun s => s ≠ ""))) ≠ "" then
    some (joinSep " | " (((findAll ["th", "td"] row).map getTextStripN).filter
      (fun s => s ≠ "")) ++ "\n")
  else none

/-- The `[TABLE]` block built for a table node (server.py lines 78-85);
note it is emitted even when no row survives. -/
def tableText (n : Node) : String :=
  "\n[TABLE]\n" ++ concatAll ((findAll ["tr"] n).filterMap rowLine) ++ "[/TABLE]\n"

/-- One list item (server.py lines 92-96): `p.1` is the 0-based position of the
item among all `li` descendants (including items later dropped as empty). -/
def listLine (ordered : Bool) (p : Nat × Node) : Option String :=
  if getTextStripN p.2 ≠ "" then
    some ((if ordered then toString (p.1 + 1) ++ ". " else "• ") ++ getTextStripN p.2 ++ "\n")
  else none

/-- The `[LIST]` block built for an `ol`/`ul` node (server.py lines 89-97). -/
def listText (ordered : Bool) (n : Node) : String :=
  "\n[LIST]\n" ++ concatAll ((findAll ["li"] n).enum.filterMap (listLine ordered)) ++ "[/LIST]\n"

/-- The branch dispatch of `process_element` (server.py lines 77-113):
the parts contributed by one element. -/
def processParts (n : Node) : List String :=
  match n with
  | .text _ => []
  | .elem t cl cs =>
    if t = "table" then [tableText (.elem t cl cs)]
    else if t = "ol" ∨ t = "ul" then
      (if (findAll ["li"] (.elem t cl cs)).isEmpty then []
       else [listText (t == "ol") (.elem t cl cs)])
    else if t ∈ ["h1", "h2", "h3", "h4", "h5", "h6"] then
      (if getTextStripN (.elem t cl cs) ≠ "" then
        ["\n[HEADING] " ++ getTextStripN (.elem t cl cs) ++ " [/HEADING]\n"]
       else [])
    else if t = "p" ∨ t = "div" then
      (if getTextStripN (.elem t cl cs) ≠ "" ∧ (getTextStripN (.elem t cl cs)).length > 15 then
        (if (findAll ["table", "ol", "ul"] (.elem t cl cs)).isEmpty then
          [getTextStripN (.elem t cl cs) ++ "\n"]
         else [])
       else [])
    else []

/-- `process_element` (server.py lines 70-113): dedup check on the node identity
(modelled as the node's position in `all_elements`), then branch dispatch. -/
def process_element (seen : List Nat) (idx : Nat) (n : Node) : List Nat × List String :=
  if idx ∈ seen then (seen, []) else (idx :: seen, processParts n)

/-- The main loop of `extract_structured_content` (server.py lines 119-124):
skip elements whose direct parent is a table/list, otherwise process,
threading the visited set. -/
def extractLoop : List (Nat × (Node × String)) → List Nat → List String
  | [], _ => []
  | (i, (n, p)) :: rest, seen =>
    if p ∈ structuredTags then extractLoop rest seen
    else (process_element seen i n).2 ++ extractLoop rest (process_element seen i n).1

/-- `extract_structured_content` (server.py lines 65-126). -/
def extract_structured_content (root : Node) : String :=
  joinSep "\n" (extractLoop (allElements root).enum [])

/-- The same loop with the `processed_ids` set removed. -/
def extractLoopND : List (Nat × (Node × String)) → List String
  | [] => []
  | (_, (n, p)) :: rest =>
    if p ∈ structuredTags then extractLoopND rest
    else processParts n ++ extractLoopND rest

/-- `extract_structured_content` with the `processed_ids` dedup set removed. -/
def extractNoDedup (root : Node) : String :=
  joinSep "\n" (extractLoopND (allElements root).enum)

/-! ### Candidate Selector and Extraction Coordinator
(`extract_article_content`, server.py lines 128-220) -/

/-- Tags removed before analysis (server.py line 159). -/
def noiseTags : List String := ["script", "style", "nav", "footer", "header", "aside"]

mutual
/-- `decompose()` of all noise elements: a removed node yields nothing. -/
def removeNoiseN : Node → List Node
  | .text s => [.text s]
  | .elem t cl cs => if noiseTags.contains t then [] else [.elem t cl (removeNoiseL cs)]

def removeNoiseL : List Node → List Node
  | [] => []
  | c :: cs => removeNoiseN c ++ removeNoiseL cs
end

/-- The soup after removing script/style/nav/footer/header/aside. -/
def cleanSoup : Node → Node
  | .text s => .text s
  | .elem t cl cs => .elem t cl (removeNoiseL cs)

/-- The WPRM recipe-container predicate (server.py line 172): a `div` whose
class attribute contains the substring `wprm-recipe-container`. -/
def isWprmDiv (n : Node) : Bool :=
  match n with
  | .text _ => false
  | .elem t cl _ => t == "div" && cl.any (fun c => strContains c "wprm-recipe-container")

/-- BeautifulSoup `soup.find(...)`: the first matching descendant in document order. -/
def findFirst (p : Node → Bool) (n : Node) : Option Node := (descendants n).find? p

/-- CSS selector matching for the selectors in `content_selectors`: a leading
dot selects by class, otherwise by tag name. -/
def matchSel (sel : String) (n : Node) : Bool :=
  match n with
  | .text _ => false
  | .elem t cl _ =>
    match sel.data with
    | '.' :: clsName => cl.contains (⟨clsName⟩ : String)
    | _ => t == sel

/-- BeautifulSoup `soup.select(selector)`: all matching descendants in document order. -/
def select (sel : String) (soup : Node) : List Node :=
  (descendants soup).filter (matchSel sel)

/-- The fixed ordered selector list (server.py lines 163-166). -/
def content_selectors : List String :=
  ["article", "main", ".content", ".post-content", ".entry-content",
   ".article-content", ".post-body", ".story-body", ".article-body"]

/-- The inner loop over one selector's matches (server.py lines 188-191):
keep the longest extracted text, starting from the empty string. -/
def bestOf (els : List Node) : String :=
  els.foldl (fun acc e =>
    if (extract_structured_content e).length > acc.length then extract_structured_content e
    else acc) ""

/-- The generic selector scan (server.py lines 185-192): stop at the first
selector that yields any matches. -/
def scanLoop (soup : Node) : List String → String
  | [] => ""
  | sel :: rest =>
    if (select sel soup).isEmpty then scanLoop soup rest else bestOf (select sel soup)

/-- The generic candidate (`article_content` in server.py). -/
def genericCandidate (soup : Node) : String := scanLoop soup content_selectors

/-- The specialized WPRM candidate (server.py lines 172-176): kept only when
its extracted length exceeds 500 characters. -/
def wprmCandidate (soup : Node) : String :=
  match findFirst isWprmDiv soup with
  | some w =>
    if (extract_structured_content w).length > 500 then extract_structured_content w else ""
  | none => ""

/-- The page title (server.py lines 179-181). -/
def titleOf (soup : Node) : String :=
  match findFirst (fun n => tagOf n == "title") soup with
  | some t => pstrip (getTextRawN t)
  | none => ""

/-- The full-body fallback candidate (server.py lines 202-205). -/
def bodyCandidate (soup : Node) : String :=
  match findFirst (fun n => tagOf n == "body") soup with
  | some b => extract_structured_content b
  | none => ""

/-- The combination step (server.py lines 195-199): specialized text, blank
line, generic text when both exist; otherwise whichever exists. -/
def combinedCandidate (soup : Node) : String :=
  if wprmCandidate soup ≠ "" ∧ genericCandidate soup ≠ "" then
    wprmCandidate soup ++ "\n\n" ++ genericCandidate soup
  else if genericCandidate soup ≠ "" ∧ wprmCandidate soup = "" then genericCandidate soup
  else wprmCandidate soup

/-- The final candidate text before acceptance (server.py lines 171-205):
the combined candidate, or the full-body extraction when it is empty. -/
def candidateText (soup : Node) : String :=
  if combinedCandidate soup = "" then bodyCandidate soup else combinedCandidate soup

/-- The result record returned by `extract_article_content`. -/
structure ArtResult where
  title : String
  text : String
  author : List String
  publish_date : Option String
  method : String

/-- The data supplied by the newspaper3k library on success. -/
structure NewsArticle where
  title : String
  text : String
  authors : List String
  publish_date : Option String

/-- The BeautifulSoup fallback branch (server.py lines 148-216): clean the
soup, select the candidate, accept only when the stripped candidate exceeds
200 characters. -/
def soupExtract (rawSoup : Node) : Option ArtResult :=
  if candidateText (cleanSoup rawSoup) ≠ "" ∧
      (pstrip (candidateText (cleanSoup rawSoup))).length > 200 then
    some ⟨if titleOf (cleanSoup rawSoup) = "" then "Web Article" else titleOf (cleanSoup rawSoup),
          pstrip (candidateText (cleanSoup rawSoup)), [], none, "beautifulsoup"⟩
  else none

/-- The fallback stage with its network-call count: fetching the page is the
second outbound call whether or not it succeeds. -/
def fallbackExtract : Except Unit Node → Option ArtResult × Nat
  | .ok soup => (soupExtract soup, 2)
  | .error _ => (none, 2)

/-- `extract_article_content` (server.py lines 128-220), over the outcomes of
its two outbound calls: `lib` is the newspaper3k attempt (the first call),
`page` the raw HTML fetch (the second call, made only on fallback). The
returned `Nat` counts outbound network calls. -/
def extract_article_content (lib : Except Unit NewsArticle) (page : Except Unit Node) :
    Option ArtResult × Nat :=
  match lib with
  | .ok art =>
    if art.text ≠ "" ∧ (pstrip art.text).length > 200 then
      (some ⟨if art.title = "" then "Article" else art.title, pstrip art.text,
             art.authors, art.publish_date, "newspaper3k"⟩, 1)
    else fallbackExtract page
  | .error _ => fallbackExtract page

/-! ### Concrete documents and spec-side renderings used by the claims -/

/-- A list item holding a single text node. -/
def mkLi (t : String) : Node := .elem "li" [] [.text t]

/-- A body containing one ordered list whose items are the given strings. -/
def olDoc (ts : List String) : Node := .elem "body" [] [.elem "ol" [] (ts.map mkLi)]

/-- One line of the amended ordered-list rendering: an item with empty
stripped text yields nothing, a surviving item at 0-based position `i` is
numbered `i+1` (so gaps from dropped items are preserved). -/
def olSpecLine (p : Nat × String) : Option String :=
  if pstrip p.2 ≠ "" then some (toString (p.1 + 1) ++ ". " ++ pstrip p.2 ++ "\n") else none

/-- Rendering an ordered list the way the code actually numbers it. -/
def specOlRender (ts : List String) : String :=
  "\n[LIST]\n" ++ concatAll (ts.enum.filterMap olSpecLine) ++ "[/LIST]\n"

/-- A table cell holding a single text node. -/
def mkTd (c : String) : Node := .elem "td" [] [.text c]

/-- A table row of text cells. -/
def mkTr (row : List String) : Node := .elem "tr" [] (row.map mkTd)

/-- A body containing one table with the given rows of cell texts. -/
def tableDoc (rowss : List (List String)) : Node :=
  .elem "body" [] [.elem "table" [] (rowss.map mkTr)]

/-- Rendering of one table row per the claim's words: cells are stripped,
empty cells dropped, and a row in which every cell is empty is dropped. -/
def specRowRender (row : List String) : Option String :=
  if ((row.map pstrip).filter (fun s => s ≠ "")).isEmpty then none
  else some (joinSep " | " ((row.map pstrip).filter (fun s => s ≠ "")) ++ "\n")

/-- A body containing one paragraph with the given text. -/
def pDoc (s : String) : Node := .elem "body" [] [.elem "p" [] [.text s]]

/-- A body containing one `div` that holds a one-item list and extra text. -/
def divListDoc (s : String) : Node :=
  .elem "body" [] [.elem "div" [] [.elem "ul" [] [mkLi "a"], .text s]]

/-- A table whose single cell contains a nested list: the list's direct parent
is the `td`, not the table. -/
def nestedListTableDoc : Node :=
  .elem "body" [] [.elem "table" [] [.elem "tr" [] [.elem "td" []
    [.elem "ul" [] [mkLi "xx"]]]]]

/-- A table whose rows are all empty after stripping. -/
def emptyRowsTableDoc : Node := tableDoc [[" "], [""]]

/-- The ordered-list example from the claim. -/
def recipeListDoc : Node := olDoc ["Mix ingredients", "", "Boil water"]

/-- A page whose only candidate content is one short paragraph. -/
def shortPageDoc : Node :=
  .elem "html" [] [.elem "body" [] [.elem "p" [] [.text "a short paragraph text"]]]

/-- A library-extraction result with 250 characters of text. -/
def newsArt250 : NewsArticle :=
  ⟨"Spec Title", ⟨List.replicate 250 'x'⟩, ["Author One"], some "2024-01-01"⟩

/-- A WPRM recipe container holding 510 characters of paragraph text. -/
def wprmDiv510 : Node :=
  .elem "div" ["wprm-recipe-container-12345"] [.elem "p" [] [.text ⟨List.replicate 510 'a'⟩]]

/-- An `article` element holding 300 characters of paragraph text. -/
def articleDiv300 : Node :=
  .elem "article" [] [.elem "p" [] [.text ⟨List.replicate 300 'b'⟩]]

/-- A page with both a large WPRM container and a generic `article` match. -/
def recipePageDoc : Node := .elem "html" [] [.elem "body" [] [wprmDiv510, articleDiv300]]

/-- A page with no `article` element but a `main` element with content. -/
def mainPageDoc : Node :=
  .elem "html" [] [.elem "main" [] [.elem "p" [] [.text "sufficiently long text here"]]]

/-- A page whose first matching selector (`article`) yields only an empty
extraction, while the body holds 250 characters of real content. -/
def emptyArticlePageDoc : Node :=
  .elem "html" [] [.elem "body" [] [.elem "article" [] [],
    .elem "p" [] [.text ⟨List.replicate 250 'c'⟩]]]

/-! ### Helper lemmas on the string primitives -/

theorem sdata_append (a b : String) : (a ++ b).data = a.data ++ b.data := by
  cases a; cases b; rfl

theorem sappend_empty (s : String) : s ++ "" = s := by
  cases s; show String.mk _ = _; simp [String.append]

theorem sempty_iff_data (s : String) : s = "" ↔ s.data = [] := by
  constructor
  · intro h; rw [h]
  · intro h
    cases s with
    | mk l =>
      have hl : l = [] := h
      rw [hl]

theorem pstrip_empty : pstrip "" = "" := rfl

theorem dropWhile_head_false {p : Char → Bool} :
    ∀ (l : List Char) (c : Char) (rest : List Char),
      l.dropWhile p = c :: rest → p c = false := by
  intro l
  induction l with
  | nil => intro c rest h; simp [List.dropWhile] at h
  | cons a l ih =>
    intro c rest h
    rw [List.dropWhile_cons] at h
    by_cases ha : p a
    · rw [if_pos ha] at h; exact ih c rest h
    · rw [if_neg ha] at h
      cases h
      exact Bool.of_not_eq_true ha

theorem allws_of_pstripData_nil :
    ∀ (l : List Char), pstripData l = [] → ∀ c ∈ l, isWs c = true := by
  intro l
  induction l with
  | nil => intro _ c hc; cases hc
  | cons a l ih =>
    intro h c hc
    by_cases ha : isWs a
    · have hstep : pstripData (a :: l) = pstripData l := by
        unfold pstripData
        rw [List.dropWhile_cons, if_pos ha]
      rw [hstep] at h
      rcases List.mem_cons.mp hc with rfl | hmem
      · exact ha
      · exact ih h c hmem
    · exfalso
      unfold pstripData at h
      rw [List.dropWhile_cons, if_neg ha] at h
      have h2 : ((a :: l).reverse.dropWhile isWs) = [] := by
        have := congrArg List.reverse h
        simpa using this
      have h3 : ∀ x ∈ (a :: l).reverse, isWs x = true := by
        rw [List.dropWhile_eq_nil_iff] at h2
        exact h2
      exact ha (h3 a (by simp))

theorem pstrip_ne_of_exists {s : String} (h : ∃ c ∈ s.data, isWs c = false) :
    pstrip s ≠ "" := by
  intro heq
  obtain ⟨c, hmem, hws⟩ := h
  have : pstripData s.data = [] := by
    have := (sempty_iff_data (pstrip s)).mp heq
    simpa [pstrip] using this
  have := allws_of_pstripData_nil s.data this c hmem
  rw [this] at hws
  cases hws

theorem exists_not_ws_of_pstrip_ne {s : String} (h : pstrip s ≠ "") :
    ∃ c ∈ (pstrip s).data, isWs c = false := by
  have hne : pstripData s.data ≠ [] := by
    intro hnil
    apply h
    show (⟨pstripData s.data⟩ : String) = ""
    rw [hnil]
  rcases hd : (s.data.dropWhile isWs).reverse.dropWhile isWs with _ | ⟨c, rest⟩
  · exact absurd (by unfold pstripData; rw [hd]; rfl) hne
  · refine ⟨c, ?_, dropWhile_head_false _ c rest hd⟩
    show c ∈ (pstrip s).data
    have : (pstrip s).data = ((s.data.dropWhile isWs).reverse.dropWhile isWs).reverse := rfl
    rw [this, hd, List.mem_reverse]
    exact List.mem_cons_self c rest

theorem pstrip_ne_empty_src {s : String} (h : pstrip s ≠ "") : s ≠ "" := by
  intro heq; exact h (by rw [heq]; rfl)

theorem slength_pos_ne {s : String} {k : Nat} (h : k < s.length) : s ≠ "" := by
  intro heq
  rw [heq] at h
  simp [String.length] at h

/-! ### Inertness of the dedup set -/

theorem extractLoop_eq_ND (l : List (Node × String)) :
    ∀ (k : Nat) (seen : List Nat), (∀ j ∈ seen, j < k) →
    extractLoop (List.enumFrom k l) seen = extractLoopND (List.enumFrom k l) := by
  induction l with
  | nil => intro k seen _; rfl
  | cons x xs ih =>
    intro k seen hseen
    obtain ⟨n, p⟩ := x
    show extractLoop ((k, (n, p)) :: List.enumFrom (k + 1) xs) seen
        = extractLoopND ((k, (n, p)) :: List.enumFrom (k + 1) xs)
    by_cases hp : p ∈ structuredTags
    · simp only [extractLoop, extractLoopND, if_pos hp]
      exact ih (k + 1) seen (fun j hj => Nat.lt_succ_of_lt (hseen j hj))
    · have hk : k ∉ seen := fun hk => Nat.lt_irrefl k (hseen k hk)
      simp only [extractLoop, extractLoopND, if_neg hp, process_element, if_neg hk]
      exact congrArg (processParts n ++ ·) (ih (k + 1) (k :: seen) (by
        intro j hj
        rcases List.mem_cons.mp hj with rfl | hj2
        · exact Nat.lt_succ_self j
        · exact Nat.lt_succ_of_lt (hseen j hj2)))

theorem extract_via_ND (root : Node) :
    extract_structured_content root = joinSep "\n" (extractLoopND (allElements root).enum) := by
  unfold extract_structured_content
  exact congrArg (joinSep "\n")
    (extractLoop_eq_ND (allElements root) 0 [] (by intro j hj; cases hj))

/-- C9: the visited-node set of the Structured Extractor is inert: the
traversal hands each element to `process_element` exactly once (under a fresh
identity), so the membership check on the dedup set never fires and
`extract_structured_content` is extensionally equal to the same function with
the `processed_ids` set removed. -/
theorem c9_dedup_inert (root : Node) :
    extract_structured_content root = extractNoDedup root := by
  unfold extract_structured_content extractNoDedup
  exact congrArg (joinSep "\n")
    (extractLoop_eq_ND (allElements root) 0 [] (by intro j hj; cases hj))

/-! ### C1: at-most-once emission fails for deeply nested structure -/

/-- C1 counterexample: in `<body><table><tr><td><ul><li>xx</li></ul></td></tr></table></body>`
the text node `xx` contributes both to the `[TABLE]` token (as the cell text of
the emitted table) and to the `[LIST]` token (the nested `ul` is processed
again, because its direct parent is the `td`, not the table). The source node
therefore contributes to two tokens, refuting the at-most-once claim: the
output contains the two characters of `xx` twice (four `x` in total). -/
theorem c1_counterexample :
    extract_structured_content nestedListTableDoc
      = "\n[TABLE]\nxx\n[/TABLE]\n\n\n[LIST]\n• xx\n[/LIST]\n" ∧
    (extract_structured_content nestedListTableDoc).data.count 'x' = 4 :=
  ⟨rfl, by decide⟩

/-- C1 amended: when a table or list token is emitted only the source node
itself is marked visited, not its descendants; the traversal instead skips
exactly those elements whose direct parent is a table or list node, so such an
element contributes nothing of its own, while structured elements nested
deeper (e.g. a list inside a table cell) are processed again and may
contribute their content to a second token. -/
theorem c1_amended_skip (i : Nat) (n : Node) (p : String)
    (rest : List (Nat × (Node × String))) (seen : List Nat)
    (hp : p ∈ structuredTags) :
    extractLoop ((i, (n, p)) :: rest) seen = extractLoop rest seen := by
  simp only [extractLoop, if_pos hp]

theorem c1_amended_skip_witness :
    "table" ∈ structuredTags ∧
      extractLoop [(0, (Node.text "x", "table"))] [] = extractLoop [] [] :=
  ⟨by decide, c1_amended_skip 0 (Node.text "x") "table" [] [] (by decide)⟩

/-! ### C2: ordered-list numbering -/

/-- C2 counterexample: for the ordered list `["Mix ingredients", "", "Boil water"]`
the empty item is dropped but the surviving items keep their original
positions' numbers: the output reads `1. Mix ingredients` then `3. Boil water`,
not the claimed `2. Boil water` (gaps are preserved, not closed). -/
theorem c2_counterexample :
    extract_structured_content recipeListDoc
      = "\n[LIST]\n1. Mix ingredients\n3. Boil water\n[/LIST]\n" ∧
    extract_structured_content recipeListDoc
      ≠ "\n[LIST]\n1. Mix ingredients\n2. Boil water\n[/LIST]\n" :=
  ⟨rfl, by decide⟩

/-! ### C3: empty table rows -/

/-- C3 counterexample: a table whose rows are all empty after stripping still
emits a blank `[TABLE]`/`[/TABLE]` pair — the token is appended
unconditionally, refuting the claim that such a table yields no token at all. -/
theorem c3_counterexample :
    extract_structured_content emptyRowsTableDoc = "\n[TABLE]\n[/TABLE]\n" ∧
    extract_structured_content emptyRowsTableDoc ≠ "" :=
  ⟨rfl, by decide⟩

/-! ### Structure lemmas for list documents -/

theorem descPairs_li_filter (ts : List String) :
    (descPairsL "ol" (ts.map mkLi)).filter (fun np => isTagIn allowTags np.1) = [] := by
  induction ts with
  | nil => rfl
  | cons t ts ih =>
    show ((descPairsN "ol" (mkLi t) ++ descPairsL "ol" (ts.map mkLi)).filter
        (fun np => isTagIn allowTags np.1)) = []
    rw [List.filter_append, ih]
    rfl

theorem subtreeL_li_filter (ts : List String) :
    (subtreeL (ts.map mkLi)).filter (isTagIn ["li"]) = ts.map mkLi := by
  induction ts with
  | nil => rfl
  | cons t ts ih =>
    show ((subtreeN (mkLi t) ++ subtreeL (ts.map mkLi)).filter (isTagIn ["li"]))
        = mkLi t :: ts.map mkLi
    rw [List.filter_append, ih]
    rfl

theorem findAll_li_map (ts : List String) :
    findAll ["li"] (Node.elem "ol" [] (ts.map mkLi)) = ts.map mkLi := by
  show (subtreeL (ts.map mkLi)).filter (isTagIn ["li"]) = ts.map mkLi
  exact subtreeL_li_filter ts

theorem getTextStrip_mkLi (t : String) : getTextStripN (mkLi t) = pstrip t := by
  show getTextStripL [Node.text t] = pstrip t
  show getTextStripN (Node.text t) ++ getTextStripL [] = pstrip t
  exact sappend_empty _

theorem liLines_eq (ts : List String) : ∀ (k : Nat),
    (List.enumFrom k (ts.map mkLi)).filterMap (listLine true)
      = (List.enumFrom k ts).filterMap olSpecLine := by
  induction ts with
  | nil => intro k; rfl
  | cons t ts ih =>
    intro k
    show List.filterMap (listLine true) ((k, mkLi t) :: List.enumFrom (k + 1) (ts.map mkLi))
        = List.filterMap olSpecLine ((k, t) :: List.enumFrom (k + 1) ts)
    rw [List.filterMap_cons, List.filterMap_cons]
    have hline : listLine true (k, mkLi t) = olSpecLine (k, t) := by
      simp [listLine, olSpecLine, getTextStrip_mkLi]
    rw [hline, ih (k + 1)]

/-- C2 amended: items whose stripped text is empty are dropped, but a
surviving item at 0-based position `i` among all items (dropped ones included)
is numbered `i+1`: gaps left by dropped items are preserved, not closed. For
any non-empty item list the whole extractor output equals this rendering. -/
theorem c2_renumber_amended (ts : List String) (hne : ts ≠ []) :
    extract_structured_content (olDoc ts) = specOlRender ts := by
  have hall : allElements (olDoc ts)
      = [(Node.elem "ol" [] (ts.map mkLi), "body")] := by
    show ((descPairsN "body" (Node.elem "ol" [] (ts.map mkLi)) ++ descPairsL "body" []).filter
        (fun np : Node × String => isTagIn allowTags np.1)) = _
    rw [descPairsN]
    show (((Node.elem "ol" [] (ts.map mkLi), "body") :: descPairsL "ol" (ts.map mkLi))
        ++ []).filter (fun np : Node × String => isTagIn allowTags np.1) = _
    rw [List.append_nil, List.filter_cons_of_pos (by rfl), descPairs_li_filter]
  have hmapne : ts.map mkLi ≠ [] := by
    intro h
    exact hne (List.map_eq_nil_iff.mp h)
  unfold extract_structured_content
  rw [hall]
  show joinSep "\n" (extractLoop [(0, (Node.elem "ol" [] (ts.map mkLi), "body"))] []) = _
  rw [extractLoop]
  rw [if_neg (by decide)]
  show joinSep "\n" (processParts (Node.elem "ol" [] (ts.map mkLi)) ++ extractLoop [] [0]) = _
  rw [extractLoop, List.append_nil]
  rw [processParts]
  rw [if_neg (by decide), if_pos (Or.inl rfl)]
  rw [findAll_li_map]
  rw [if_neg (by simp [List.isEmpty_iff, hmapne])]
  show listText true (Node.elem "ol" [] (ts.map mkLi)) = _
  unfold listText specOlRender
  rw [findAll_li_map]
  show "\n[LIST]\n" ++ concatAll ((List.enumFrom 0 (ts.map mkLi)).filterMap (listLine true))
      ++ "[/LIST]\n" = _
  rw [liLines_eq ts 0]
  rfl

theorem c2_renumber_amended_witness :
    (["Mix ingredients", "", "Boil water"] : List String) ≠ [] ∧
    extract_structured_content (olDoc ["Mix ingredients", "", "Boil water"])
      = specOlRender ["Mix ingredients", "", "Boil water"] :=
  ⟨by decide, c2_renumber_amended ["Mix ingredients", "", "Boil water"] (by decide)⟩

/-! ### Structure lemmas for table documents -/

theorem descPairs_td_filter (row : List String) :
    (descPairsL "tr" (row.map mkTd)).filter
      (fun np : Node × String => isTagIn allowTags np.1) = [] := by
  induction row with
  | nil => rfl
  | cons c cs ih =>
    show ((descPairsN "tr" (mkTd c) ++ descPairsL "tr" (cs.map mkTd)).filter
        (fun np : Node × String => isTagIn allowTags np.1)) = []
    rw [List.filter_append, ih]
    rfl

theorem descPairs_tr_filter (rowss : List (List String)) :
    (descPairsL "table" (rowss.map mkTr)).filter
      (fun np : Node × String => isTagIn allowTags np.1) = [] := by
  induction rowss with
  | nil => rfl
  | cons row rows ih =>
    show ((descPairsN "table" (mkTr row) ++ descPairsL "table" (rows.map mkTr)).filter
        (fun np : Node × String => isTagIn allowTags np.1)) = []
    rw [List.filter_append, ih, List.append_nil]
    show (((mkTr row, "table") :: descPairsL "tr" (row.map mkTd)).filter
        (fun np : Node × String => isTagIn allowTags np.1)) = []
    rw [List.filter_cons_of_neg (by simp [mkTr, isTagIn, allowTags]), descPairs_td_filter]

theorem subtreeL_td_tr_filter (row : List String) :
    (subtreeL (row.map mkTd)).filter (isTagIn ["tr"]) = [] := by
  induction row with
  | nil => rfl
  | cons c cs ih =>
    show ((subtreeN (mkTd c) ++ subtreeL (cs.map mkTd)).filter (isTagIn ["tr"])) = []
    rw [List.filter_append, ih]
    rfl

theorem findAll_tr_map (rowss : List (List String)) :
    findAll ["tr"] (Node.elem "table" [] (rowss.map mkTr)) = rowss.map mkTr := by
  show (subtreeL (rowss.map mkTr)).filter (isTagIn ["tr"]) = rowss.map mkTr
  induction rowss with
  | nil => rfl
  | cons row rows ih =>
    show ((subtreeN (mkTr row) ++ subtreeL (rows.map mkTr)).filter (isTagIn ["tr"]))
        = mkTr row :: rows.map mkTr
    rw [List.filter_append, ih]
    show ((mkTr row :: subtreeL (row.map mkTd)).filter (isTagIn ["tr"])) ++ _ = _
    rw [List.filter_cons_of_pos (by rfl), subtreeL_td_tr_filter]
    rfl

theorem findAll_cells_map (row : List String) :
    findAll ["th", "td"] (mkTr row) = row.map mkTd := by
  show (subtreeL (row.map mkTd)).filter (isTagIn ["th", "td"]) = row.map mkTd
  induction row with
  | nil => rfl
  | cons c cs ih =>
    show ((subtreeN (mkTd c) ++ subtreeL (cs.map mkTd)).filter (isTagIn ["th", "td"]))
        = mkTd c :: cs.map mkTd
    rw [List.filter_append, ih]
    rfl

theorem getTextStrip_mkTd (c : String) : getTextStripN (mkTd c) = pstrip c := by
  show getTextStripN (Node.text c) ++ getTextStripL [] = pstrip c
  exact sappend_empty _

theorem cellTexts_eq (row : List String) :
    (row.map mkTd).map getTextStripN = row.map pstrip := by
  rw [List.map_map]
  exact List.map_congr_left (fun c _ => getTextStrip_mkTd c)

theorem joinSep_head_data (sep : String) (c : String) (rest : List String) {ch : Char}
    (h : ch ∈ c.data) : ch ∈ (joinSep sep (c :: rest)).data := by
  cases rest with
  | nil => exact h
  | cons r rs =>
    show ch ∈ (c ++ sep ++ joinSep sep (r :: rs)).data
    rw [sdata_append, sdata_append]
    exact List.mem_append_left _ (List.mem_append_left _ h)

theorem rowLine_mkTr (row : List String) : rowLine (mkTr row) = specRowRender row := by
  unfold rowLine specRowRender
  rw [findAll_cells_map, cellTexts_eq]
  rcases hc : (row.map pstrip).filter (fun s => s ≠ "") with _ | ⟨c, rest⟩
  · simp [joinSep, pstrip_empty]
  · have hcmem : c ∈ (row.map pstrip).filter (fun s => s ≠ "") := by
      rw [hc]; exact List.mem_cons_self c rest
    have hcfacts := List.mem_filter.mp hcmem
    obtain ⟨x, _, hxc⟩ := List.mem_map.mp hcfacts.1
    have hcne : c ≠ "" := by
      have := hcfacts.2
      simpa using this
    have hxne : pstrip x ≠ "" := by rw [hxc]; exact hcne
    obtain ⟨ch, hchmem, hchws⟩ := exists_not_ws_of_pstrip_ne hxne
    have hjoin : pstrip (joinSep " | " (c :: rest)) ≠ "" := by
      apply pstrip_ne_of_exists
      exact ⟨ch, joinSep_head_data " | " c rest (hxc ▸ hchmem), hchws⟩
    rw [if_pos hjoin, if_neg (by simp)]

/-- C3 amended: rows in which every cell's stripped text is empty are dropped
from the rows of the `[TABLE]` block (and within a surviving row the empty
cells are dropped), but the `[TABLE]`/`[/TABLE]` token itself is emitted for
every table node, even when no row survives; the concrete three-row example
keeps exactly the rows `A | B` and `C | D`. -/
theorem c3_table_amended :
    (∀ rowss : List (List String), extract_structured_content (tableDoc rowss)
      = "\n[TABLE]\n" ++ concatAll (rowss.filterMap specRowRender) ++ "[/TABLE]\n") ∧
    extract_structured_content (tableDoc [["A", "B"], ["", "", ""], ["C", "D"]])
      = "\n[TABLE]\nA | B\nC | D\n[/TABLE]\n" := by
  constructor
  · intro rowss
    have hall : allElements (tableDoc rowss)
        = [(Node.elem "table" [] (rowss.map mkTr), "body")] := by
      show ((descPairsN "body" (Node.elem "table" [] (rowss.map mkTr)) ++ descPairsL "body" []).filter
          (fun np : Node × String => isTagIn allowTags np.1)) = _
      rw [descPairsN]
      show (((Node.elem "table" [] (rowss.map mkTr), "body") :: descPairsL "table" (rowss.map mkTr))
          ++ []).filter (fun np : Node × String => isTagIn allowTags np.1) = _
      rw [List.append_nil, List.filter_cons_of_pos (by rfl), descPairs_tr_filter]
    unfold extract_structured_content
    rw [hall]
    show joinSep "\n" (extractLoop [(0, (Node.elem "table" [] (rowss.map mkTr), "body"))] []) = _
    rw [extractLoop]
    rw [if_neg (by decide)]
    show joinSep "\n" (processParts (Node.elem "table" [] (rowss.map mkTr)) ++ extractLoop [] [0]) = _
    rw [extractLoop, List.append_nil]
    rw [processParts, if_pos rfl]
    show tableText (Node.elem "table" [] (rowss.map mkTr)) = _
    unfold tableText
    rw [findAll_tr_map, List.filterMap_map]
    have hcomp : rowLine ∘ mkTr = specRowRender := funext rowLine_mkTr
    rw [hcomp]
  · rfl

/-! ### C8: the paragraph/generic-block rule -/

/-- C8: a `p`/`div` node emits a `Paragraph` exactly when its stripped text is
longer than 15 characters and it has no table/list descendant: for a body
holding a single text paragraph the whole output is the stripped text iff its
length exceeds 15 (so length 10 is dropped and length 16 kept), and a `div`
containing a one-item list plus any extra text emits only the `[LIST]` token,
never a paragraph of its own, regardless of the extra text. -/
theorem c8_paragraph_rule :
    (∀ s : String, extract_structured_content (pDoc s)
      = if (pstrip s).length > 15 then pstrip s ++ "\n" else "") ∧
    extract_structured_content (pDoc "0123456789") = "" ∧
    extract_structured_content (pDoc "0123456789abcdef") = "0123456789abcdef\n" ∧
    (∀ s : String, extract_structured_content (divListDoc s) = "\n[LIST]\n• a\n[/LIST]\n") := by
  refine ⟨?_, rfl, rfl, ?_⟩
  · intro s
    have hts : getTextStripN (Node.elem "p" [] [Node.text s]) = pstrip s := sappend_empty _
    rw [extract_via_ND]
    show joinSep "\n" (extractLoopND [(0, (Node.elem "p" [] [Node.text s], "body"))]) = _
    rw [extractLoopND, if_neg (by decide)]
    show joinSep "\n" (processParts (Node.elem "p" [] [Node.text s]) ++ []) = _
    rw [List.append_nil, processParts]
    rw [if_neg (by decide), if_neg (by decide), if_neg (by decide), if_pos (Or.inl rfl)]
    rw [hts]
    have hfa : findAll ["table", "ol", "ul"] (Node.elem "p" [] [Node.text s]) = [] := rfl
    rw [hfa]
    by_cases hlen : (pstrip s).length > 15
    · rw [if_pos ⟨slength_pos_ne hlen, hlen⟩, if_pos hlen]
      rfl
    · rw [if_neg (fun hand => hlen hand.2), if_neg hlen]
      rfl
  · intro s
    have hdiv : processParts (Node.elem "div" []
        [Node.elem "ul" [] [mkLi "a"], Node.text s]) = [] := by
      rw [processParts]
      rw [if_neg (by decide), if_neg (by decide), if_neg (by decide), if_pos (Or.inr rfl)]
      have hfa : findAll ["table", "ol", "ul"]
          (Node.elem "div" [] [Node.elem "ul" [] [mkLi "a"], Node.text s])
          = [Node.elem "ul" [] [mkLi "a"]] := rfl
      rw [hfa]
      simp
    rw [extract_via_ND]
    show joinSep "\n" (extractLoopND
        [(0, (Node.elem "div" [] [Node.elem "ul" [] [mkLi "a"], Node.text s], "body")),
         (1, (Node.elem "ul" [] [mkLi "a"], "div"))]) = _
    rw [extractLoopND, if_neg (by decide), hdiv]
    rfl

/-! ### C4: the 200-character acceptance floor -/

/-- C4: the BeautifulSoup branch accepts the chosen candidate text only when
its stripped length strictly exceeds 200 characters; when it does not, the
branch yields no result and the Coordinator (here after a failed library
attempt) returns the single no-content signal, never a truncated or degraded
result. -/
theorem c4_acceptance (soup : Node)
    (hlen : (pstrip (candidateText (cleanSoup soup))).length ≤ 200) :
    soupExtract soup = none ∧
      extract_article_content (Except.error ()) (Except.ok soup) = (none, 2) := by
  have hno : soupExtract soup = none := by
    unfold soupExtract
    rw [if_neg (fun hand => (Nat.not_lt.mpr hlen) hand.2)]
  refine ⟨hno, ?_⟩
  show fallbackExtract (Except.ok soup) = (none, 2)
  show (soupExtract soup, 2) = (none, 2)
  rw [hno]

theorem c4_acceptance_witness :
    (pstrip (candidateText (cleanSoup shortPageDoc))).length ≤ 200 ∧
      soupExtract shortPageDoc = none :=
  ⟨by decide, (c4_acceptance shortPageDoc (by decide)).1⟩

/-! ### C5: the library short-circuit -/

/-- C5: when the newspaper3k attempt succeeds with text whose stripped length
exceeds 200 characters, the Coordinator returns immediately with that text
(method `newspaper3k`, the spec's `LibraryExtraction`), carrying title (with
its `Article` placeholder for an empty title), authors and publish date; the
result is independent of the `page` fetch outcome and the call count is
exactly 1 — the generic HTML-fetch fallback is never invoked. -/
theorem c5_library_short_circuit (art : NewsArticle) (page : Except Unit Node)
    (hlen : (pstrip art.text).length > 200) :
    extract_article_content (Except.ok art) page
      = (some ⟨if art.title = "" then "Article" else art.title, pstrip art.text,
              art.authors, art.publish_date, "newspaper3k"⟩, 1) := by
  have hne : art.text ≠ "" := by
    intro h
    rw [h, pstrip_empty] at hlen
    exact absurd hlen (by decide)
  show (if art.text ≠ "" ∧ (pstrip art.text).length > 200 then _ else fallbackExtract page) = _
  rw [if_pos ⟨hne, hlen⟩]

theorem c5_library_short_circuit_witness :
    (pstrip newsArt250.text).length > 200 ∧
      extract_article_content (Except.ok newsArt250) (Except.error ())
        = (some ⟨if newsArt250.title = "" then "Article" else newsArt250.title,
                pstrip newsArt250.text, newsArt250.authors, newsArt250.publish_date,
                "newspaper3k"⟩, 1) :=
  ⟨by decide, c5_library_short_circuit newsArt250 (Except.error ()) (by decide)⟩

/-! ### C6: combination order of specialized and generic candidates -/

/-- C6: when a WPRM specialized container is found whose extracted text
exceeds 500 characters and the generic selector scan produced a non-empty
candidate, the Candidate Selector's chosen text is exactly the specialized
text, then a blank line, then the generic text, in that order. -/
theorem c6_combination (soup w : Node)
    (hfind : findFirst isWprmDiv soup = some w)
    (hlen : (extract_structured_content w).length > 500)
    (hgen : genericCandidate soup ≠ "") :
    candidateText soup
      = extract_structured_content w ++ "\n\n" ++ genericCandidate soup := by
  have hw : wprmCandidate soup = extract_structured_content w := by
    unfold wprmCandidate
    rw [hfind]
    exact if_pos hlen
  have hwne : wprmCandidate soup ≠ "" := by
    rw [hw]
    exact slength_pos_ne hlen
  have hcomb : combinedCandidate soup
      = extract_structured_content w ++ "\n\n" ++ genericCandidate soup := by
    unfold combinedCandidate
    rw [if_pos ⟨hwne, hgen⟩, hw]
  have hne : combinedCandidate soup ≠ "" := by
    rw [hcomb]
    intro h
    have hd := (sempty_iff_data _).mp h
    rw [sdata_append, sdata_append] at hd
    rcases List.append_eq_nil.mp hd with ⟨h1, _⟩
    rcases List.append_eq_nil.mp h1 with ⟨_, h3⟩
    exact absurd h3 (by decide)
  unfold candidateText
  rw [if_neg hne, hcomb]

theorem c6_combination_witness :
    findFirst isWprmDiv recipePageDoc = some wprmDiv510 ∧
    (extract_structured_content wprmDiv510).length > 500 ∧
    genericCandidate recipePageDoc ≠ "" ∧
    candidateText recipePageDoc
      = extract_structured_content wprmDiv510 ++ "\n\n" ++ genericCandidate recipePageDoc :=
  ⟨rfl, by decide, by decide,
   c6_combination recipePageDoc wprmDiv510 rfl (by decide) (by decide)⟩

/-! ### C7: the generic scan stops at the first selector with matches -/

theorem scanLoop_append (soup : Node) (pre rest : List String)
    (hpre : ∀ s ∈ pre, (select s soup).isEmpty = true) :
    scanLoop soup (pre ++ rest) = scanLoop soup rest := by
  induction pre with
  | nil => rfl
  | cons a pre ih =>
    show scanLoop soup (a :: (pre ++ rest)) = _
    rw [scanLoop, if_pos (hpre a (List.mem_cons_self a pre))]
    exact ih (fun s hs => hpre s (List.mem_cons_of_mem a hs))

/-- C7: for the first selector in the fixed ordered list that yields any DOM
matches, the generic candidate is the single longest extraction across that
selector's matches (the left fold keeping the longest text); the selectors
after it are never consulted — the result does not depend on `post`. -/
theorem c7_first_selector (soup : Node) (pre post : List String) (sel : String)
    (hsplit : content_selectors = pre ++ sel :: post)
    (hpre : ∀ s ∈ pre, (select s soup).isEmpty = true)
    (hsel : (select sel soup).isEmpty = false) :
    genericCandidate soup = bestOf (select sel soup) := by
  unfold genericCandidate
  rw [hsplit, scanLoop_append soup pre (sel :: post) hpre, scanLoop,
      if_neg (by simp [hsel])]

theorem c7_first_selector_witness :
    (∀ s ∈ (["article"] : List String), (select s mainPageDoc).isEmpty = true) ∧
    (select "main" mainPageDoc).isEmpty = false ∧
    genericCandidate mainPageDoc = bestOf (select "main" mainPageDoc) :=
  ⟨by decide, by decide,
   c7_first_selector mainPageDoc ["article"]
     [".content", ".post-content", ".entry-content", ".article-content",
      ".post-body", ".story-body", ".article-body"] "main" rfl (by decide) (by decide)⟩

/-! ### C10: an all-empty first selector never blocks the body fallback -/

theorem bestOf_foldl_const (els : List Node) :
    ∀ (acc : String), (∀ e ∈ els, extract_structured_content e = "") →
    els.foldl (fun acc e =>
      if (extract_structured_content e).length > acc.length then extract_structured_content e
      else acc) acc = acc := by
  induction els with
  | nil => intro acc _; rfl
  | cons e els ih =>
    intro acc h
    show els.foldl _
        (if (extract_structured_content e).length > acc.length then extract_structured_content e
         else acc) = acc
    rw [h e (List.mem_cons_self e els),
        if_neg (show ¬(("" : String).length > acc.length) from Nat.not_lt_zero acc.length)]
    exact ih acc (fun x hx => h x (List.mem_cons_of_mem e hx))

/-- C10: when the first selector that yields matches extracts only empty text
from all of them, the scan still stops there with an empty generic candidate,
and — the specialized WPRM candidate being absent — the Candidate Selector
falls through to the full-body extraction instead of failing at that point. -/
theorem c10_empty_selector_fallback (soup : Node) (pre post : List String) (sel : String)
    (hsplit : content_selectors = pre ++ sel :: post)
    (hpre : ∀ s ∈ pre, (select s soup).isEmpty = true)
    (hsel : (select sel soup).isEmpty = false)
    (hempty : ∀ e ∈ select sel soup, extract_structured_content e = "")
    (hwprm : wprmCandidate soup = "") :
    genericCandidate soup = "" ∧ candidateText soup = bodyCandidate soup := by
  have hgen : genericCandidate soup = "" := by
    unfold genericCandidate
    rw [hsplit, scanLoop_append soup pre (sel :: post) hpre, scanLoop,
        if_neg (by simp [hsel])]
    exact bestOf_foldl_const (select sel soup) "" hempty
  have hcomb : combinedCandidate soup = "" := by
    unfold combinedCandidate
    rw [if_neg (fun hand => hand.2 hgen), if_neg (fun hand => hand.1 hgen), hwprm]
  refine ⟨hgen, ?_⟩
  unfold candidateText
  rw [hcomb]
  simp

theorem c10_empty_selector_fallback_witness :
    (select "article" emptyArticlePageDoc).isEmpty = false ∧
    (∀ e ∈ select "article" emptyArticlePageDoc, extract_structured_content e = "") ∧
    wprmCandidate emptyArticlePageDoc = "" ∧
    (genericCandidate emptyArticlePageDoc = "" ∧
      candidateText emptyArticlePageDoc = bodyCandidate emptyArticlePageDoc) :=
  ⟨by decide, by decide, by decide,
   c10_empty_selector_fallback emptyArticlePageDoc []
     ["main", ".content", ".post-content", ".entry-content", ".article-content",
      ".post-body", ".story-body", ".article-body"] "article" rfl
     (by intro s hs; cases hs) (by decide) (by decide) (by decide)⟩

end AIStructurer
